import Mathlib

/-!
Verification development for the Slippi-Scatter repository (`src/main.py`).

The program is a three-stage pipeline inside the class `SlippiScatter`:
`generate_dataframe` (frame extraction), `create_images` (frame rendering)
and `create_gif` (animation assembly), orchestrated by `run_analysis`.

The shallow embedding below models:
* the file system as a map from directory names to lists of files, each
  file carrying a name and a modification time (`mtime`, a natural number);
* matplotlib figures as records of the exact plotting calls made by
  `create_images` (limits, lines, scatter markers with size/colour/alpha/
  zorder, title);
* Python exceptions as `Except` errors (`IndexError`, `AttributeError`,
  `ValueError` from `float(...)`);
* Python floats as exact rationals; the constant `np.e` is the IEEE-754
  double nearest Euler's number, embedded as an exact rational.
-/

namespace Slippi

/-- A file on disk: its base name inside its directory, and its
modification timestamp. -/
structure ImageFile where
  name : String
  mtime : ℕ
deriving DecidableEq

/-- The file system: each directory name maps to the list of files it
contains. -/
def FS : Type := String → List ImageFile

/-- `glob.glob(f"{dir}/*.png")` membership test: the name ends in `.png`
and, per glob's rules, does not start with a dot (hidden files are not
matched by `*`). -/
def globPng (s : String) : Bool :=
  let cs := s.toList
  (cs.head? != some '.') && decide (4 ≤ cs.length)
    && (cs.drop (cs.length - 4) == ['.', 'p', 'n', 'g'])

/-- `glob.glob('Temp_images/*')` membership test: `*` matches every
non-hidden file name. -/
def globAll (s : String) : Bool :=
  s.toList.head? != some '.'

/-- Insert a file into a list that is sorted by ascending `mtime`,
keeping equal-key order stable (the earlier element stays first, as in
Python's stable `sorted`). -/
def insertByMtime (f : ImageFile) : List ImageFile → List ImageFile
  | [] => [f]
  | g :: gs => if f.mtime ≤ g.mtime then f :: g :: gs else g :: insertByMtime f gs

/-- `sorted(images, key=os.path.getmtime)`: stable sort by ascending
modification time. -/
def sortByMtime : List ImageFile → List ImageFile
  | [] => []
  | f :: fs => insertByMtime f (sortByMtime fs)

/-- The ordering used by the sort. -/
def mleb (a b : ImageFile) : Prop := a.mtime ≤ b.mtime

/-- The errors the assembler can raise. `uncaughtIndexError` is the
unhandled Python `IndexError` raised by `frames[0]` on an empty list;
`degenerateInputSignal` stands for an explicitly raised "nothing to
render" error — the source never produces it. -/
inductive GifError where
  | uncaughtIndexError
  | degenerateInputSignal
deriving DecidableEq

/-- The saved GIF: output path, the frames in the order they are encoded,
the per-frame duration and the loop count passed to `save`. -/
structure GifArtifact where
  path : String
  frames : List ImageFile
  duration : ℕ
  loop : ℕ
deriving DecidableEq

/-- `SlippiScatter.remove_temp_files` (src/main.py:152-156): globs the
literal pattern `'Temp_images/*'` — not `self.temp_images_dir` — and
removes every matched file. -/
def remove_temp_files (fs : FS) : FS :=
  fun d => if d = "Temp_images" then (fs d).filter (fun f => !globAll f.name) else fs d

/-- `f"Output/{self.gif_title}.gif"`: Python interpolates `None` as the
string `"None"`. -/
def strTitle : Option String → String
  | some t => t
  | none => "None"

/-- `SlippiScatter.create_gif` (src/main.py:41-68): glob the `.png` files
of the temp directory, sort them by modification time, open each as a
frame; `frames[0].save(...)` raises an unhandled `IndexError` when the
list is empty, otherwise saves all frames as a GIF with `duration=30`,
`loop=0` to `Output/{title}.gif`; finally `remove_temp_files` runs. -/
def create_gif (fs : FS) (dir : String) (title : Option String) :
    Except GifError (GifArtifact × FS) :=
  let images := (fs dir).filter (fun f => globPng f.name)
  let frames := sortByMtime images
  match frames with
  | [] => .error .uncaughtIndexError
  | f0 :: rest =>
    .ok ({ path := "Output/" ++ strTitle title ++ ".gif",
           frames := f0 :: rest, duration := 30, loop := 0 },
         remove_temp_files fs)

/-- The empty file system. -/
def fsEmpty : FS := fun _ => []

/-! ### Frame Extractor: `generate_dataframe` -/

/-- The exceptions the extractor can raise: `IndexError` (tuple index out
of range, or a missing split component), `AttributeError` (a `None` port
has no attribute `leader`), `ValueError` (`float()` on a bad literal). -/
inductive DfError where
  | indexError
  | attributeError
  | valueError
deriving DecidableEq

/-- `frame.ports[i].leader.pre`: the pre-frame state of the player in a
port, as exposed by the external `slippi` parser.  `position` is the
string form `str(...)` of the parser's position object (the source
stringifies it before parsing it back); `damage` is the float damage. -/
structure Pre where
  position : String
  damage : ℚ
deriving DecidableEq

/-- `frame.ports[i].leader`. -/
structure Leader where
  pre : Pre
deriving DecidableEq

/-- `frame.ports[i]`: a port is either occupied or `None`. -/
structure Port where
  leader : Leader
deriving DecidableEq

/-- One replay frame: its tuple of optional ports. -/
structure Frame where
  ports : List (Option Port)
deriving DecidableEq

/-- The external replay handle: `Game(path).frames`. -/
structure Game where
  frames : List Frame
deriving DecidableEq

/-- `frame.ports[i].leader.pre`: raises `IndexError` when the index is
out of range and `AttributeError` when the port is `None`. -/
def getPre (f : Frame) (i : ℕ) : Except DfError Pre :=
  match f.ports.get? i with
  | none => .error .indexError
  | some none => .error .attributeError
  | some (some p) => .ok p.leader.pre

/-- `x.replace('(', '').replace(')', '')`: removing every occurrence of a
single-character pattern is filtering that character out. -/
def stripParens (s : String) : List Char :=
  s.toList.filter (fun c => !(c = '(' || c = ')'))

/-- `x.split(', ')`: greedy leftmost split on the two-character separator,
accumulator-reversed like Python's scan.  Always returns at least one
(possibly empty) component. -/
def splitCommaSpace : List Char → List Char → List (List Char)
  | [], acc => [acc.reverse]
  | ',' :: ' ' :: rest, acc => acc.reverse :: splitCommaSpace rest []
  | c :: rest, acc => splitCommaSpace rest (c :: acc)

/-- Value of a digit string (assumes digits). -/
def digitsVal (cs : List Char) : ℕ :=
  cs.foldl (fun a c => a * 10 + (c.toNat - 48)) 0

/-- `float(s)` on an unsigned literal: the decimal fragment of Python's
float grammar, `digits`, `digits '.' digits?`, or `'.' digits` (exponent,
`inf`/`nan` and surrounding whitespace forms are not modelled; the
position strings handled here never use them).  The result is the exact
rational value. -/
def parseUnsigned (cs : List Char) : Option ℚ :=
  let intPart := cs.takeWhile (fun c => c ≠ '.')
  match cs.dropWhile (fun c => c ≠ '.') with
  | [] =>
    if intPart ≠ [] ∧ intPart.all Char.isDigit then some (digitsVal intPart) else none
  | '.' :: frac =>
    if intPart.all Char.isDigit ∧ frac.all Char.isDigit ∧ ¬(intPart = [] ∧ frac = []) then
      some ((digitsVal intPart : ℚ) + (digitsVal frac : ℚ) / 10 ^ frac.length)
    else none
  | _ :: _ => none

/-- `float(s)` with an optional leading sign. -/
def parseFloat (cs : List Char) : Option ℚ :=
  match cs with
  | '-' :: rest => (parseUnsigned rest).map (fun q => -q)
  | '+' :: rest => parseUnsigned rest
  | _ => parseUnsigned cs

/-- Lines 135-142 of src/main.py restricted to one position string:
strip the brackets, split on `', '`, then `float(parts[0])` (column
`_x`) and `float(parts[1])` (column `_y`).  A failed `float` raises
`ValueError`; a missing `parts[1]` raises `IndexError` (the `_x` parse
runs first, matching the column order of the source).  Extra components
beyond the first two are never read. -/
def parsePos (s : String) : Except DfError (ℚ × ℚ) :=
  match splitCommaSpace (stripParens s) [] with
  | [] => .error .indexError
  | [x] =>
    match parseFloat x with
    | none => .error .valueError
    | some _ => .error .indexError
  | x :: y :: _ =>
    match parseFloat x with
    | none => .error .valueError
    | some px =>
      match parseFloat y with
      | none => .error .valueError
      | some py => .ok (px, py)

/-- One row of the extractor's DataFrame (the cleaned `P1`/`P2` string
columns are intermediate; the consumed columns are these six). -/
structure FrameRow where
  P1_x : ℚ
  P1_y : ℚ
  P2_x : ℚ
  P2_y : ℚ
  P1_damage : ℚ
  P2_damage : ℚ
deriving DecidableEq

/-- The appending loop of `generate_dataframe` (src/main.py:126-131):
for each frame collect `str(ports[2].leader.pre.position)`,
`str(ports[3].leader.pre.position)`, `float(ports[2].leader.pre.damage)`
and `float(ports[3].leader.pre.damage)`, failing on the first bad
frame. -/
def collectRaw : List Frame → Except DfError (List (String × String × ℚ × ℚ))
  | [] => .ok []
  | f :: fs =>
    match getPre f 2 with
    | .error e => .error e
    | .ok p1 =>
      match getPre f 3 with
      | .error e => .error e
      | .ok p2 =>
        match collectRaw fs with
        | .error e => .error e
        | .ok rest => .ok ((p1.position, p2.position, p1.damage, p2.damage) :: rest)

/-- The column-building phase of `generate_dataframe`
(src/main.py:134-144), stated row-wise: the source applies `parsePos`
column by column over the whole table, which produces the same rows on
success and no table at all on any failure (`self.df` is only assigned
after every column succeeds), so the row-wise sequencing is faithful. -/
def parseRows : List (String × String × ℚ × ℚ) → Except DfError (List FrameRow)
  | [] => .ok []
  | (p1s, p2s, d1, d2) :: rest =>
    match parsePos p1s with
    | .error e => .error e
    | .ok xy1 =>
      match parsePos p2s with
      | .error e => .error e
      | .ok xy2 =>
        match parseRows rest with
        | .error e => .error e
        | .ok rows => .ok (⟨xy1.1, xy1.2, xy2.1, xy2.2, d1, d2⟩ :: rows)

/-- `SlippiScatter.generate_dataframe` (src/main.py:115-150): the
resulting table, indexed 0..N-1 in frame order (pandas' default
`RangeIndex`), or the first exception raised. -/
def generate_dataframe (frames : List Frame) : Except DfError (List FrameRow) :=
  match collectRaw frames with
  | .error e => .error e
  | .ok raw => parseRows raw

/-! ### Frame Renderer: `create_images` -/

/-- `np.e` as used on lines 81-82: the IEEE-754 double closest to
Euler's number, i.e. `6121026514868073 * 2⁻⁵¹`, embedded exactly. -/
def np_e : ℚ := 6121026514868073 / 2251799813685248

/-- One `plt.scatter` call: position, marker area (`s=`), colour (`c=`),
optional `alpha`, and `zorder`. -/
structure ScatterSpec where
  x : ℚ
  y : ℚ
  s : ℚ
  c : String
  alpha : Option ℚ
  zorder : ℕ
deriving DecidableEq

/-- The `plt.plot` call drawing the connecting segment. -/
structure LineSpec where
  xs : List ℚ
  ys : List ℚ
  linewidth : ℚ
  color : String
  alpha : Option ℚ
  zorder : ℕ
deriving DecidableEq

/-- An axis line (`plt.axhline` / `plt.axvline`). -/
structure AxisLineSpec where
  pos : ℚ
  color : String
  alpha : Option ℚ
deriving DecidableEq

/-- The figure rendered for one row: every plotting call of the body of
the loop in `create_images` (src/main.py:79-107). -/
structure FigureSpec where
  figsize : ℚ × ℚ
  xlim : ℚ × ℚ
  ylim : ℚ × ℚ
  hline : AxisLineSpec
  vline : AxisLineSpec
  line : LineSpec
  scatters : List ScatterSpec
  title : String
deriving DecidableEq

/-- The chart for row `row` of the table (src/main.py:79-107), with the
plotting calls in source order.  The damage-bubble sizes are
`damage ** 2 * np.e` (lines 81-82), passed as `s=` on lines 103-104. -/
def renderRow (figsize : ℚ × ℚ) (row : ℕ) (r : FrameRow) : FigureSpec where
  figsize := figsize
  xlim := (-180, 180)
  ylim := (-180, 180)
  hline := ⟨0, "black", some (35 / 100)⟩
  vline := ⟨0, "black", some (35 / 100)⟩
  line := ⟨[r.P1_x, r.P2_x], [r.P1_y, r.P2_y], 35 / 10, "#7dfaa9", some (7 / 10), 1⟩
  scatters :=
    [⟨r.P1_x, r.P1_y, 150, "#f689db", none, 4⟩,
     ⟨r.P2_x, r.P2_y, 150, "#4d7ff8", none, 5⟩,
     ⟨r.P1_x, r.P1_y, r.P1_damage ^ 2 * np_e, "#7de2fb", some (35 / 100), 2⟩,
     ⟨r.P2_x, r.P2_y, r.P2_damage ^ 2 * np_e, "#f689db", some (35 / 100), 3⟩]
  title := "Frame " ++ toString row

/-- One file written by `plt.savefig(f"{self.temp_images_dir}/{row}.png")`:
its full path, its base name inside the temp directory, and the figure
saved into it. -/
structure RenderedImage where
  path : String
  base : String
  fig : FigureSpec
deriving DecidableEq

def mkRendered (figsize : ℚ × ℚ) (dir : String) (row : ℕ) (r : FrameRow) : RenderedImage :=
  ⟨dir ++ "/" ++ toString row ++ ".png", toString row ++ ".png", renderRow figsize row r⟩

/-- The loop of `create_images` from row index `row` on: `continue` on
odd indices, render and save on even ones. -/
def create_images_aux (figsize : ℚ × ℚ) (dir : String) :
    ℕ → List FrameRow → List RenderedImage
  | _, [] => []
  | row, r :: rs =>
    if row % 2 ≠ 0 then create_images_aux figsize dir (row + 1) rs
    else mkRendered figsize dir row r :: create_images_aux figsize dir (row + 1) rs

/-- `SlippiScatter.create_images` (src/main.py:70-113): iterate
`self.df.index` (0..N-1) in order, skip odd rows, write one image per
even row. -/
def create_images (figsize : ℚ × ℚ) (dir : String) (df : List FrameRow) :
    List RenderedImage :=
  create_images_aux figsize dir 0 df

/-! ### Orchestration: the `SlippiScatter` instance and `run_analysis` -/

/-- The attributes set by `SlippiScatter.__init__` (src/main.py:27-39). -/
structure SlippiScatter where
  temp_images_dir : String
  df : Option (List FrameRow)
  game : Option Game
  gif_title : Option String
  figure_size : ℚ × ℚ
  verbose : Bool

/-- `if not self.game: self.game = Game(game)` (src/main.py:164-165):
a pre-set game object is truthy, `None` is falsy. -/
def currentGame (load : String → Game) (g? : Option Game) (path : String) : Game :=
  match g? with
  | some g => g
  | none => load path

/-- `plt.savefig` into a directory: an existing file of the same name is
overwritten, otherwise the file is appended. -/
def writeImage (fs : FS) (dir : String) (file : ImageFile) : FS :=
  fun d =>
    if d = dir then (fs d).filter (fun g => g.name ≠ file.name) ++ [file] else fs d

/-- Saving the rendered images in loop order; each write bumps the clock
so later images get strictly larger modification times. -/
def writeImages (fs : FS) (dir : String) (names : List String) (t : ℕ) : FS :=
  match names with
  | [] => fs
  | n :: ns => writeImages (writeImage fs dir ⟨n, t⟩) dir ns (t + 1)

/-- A failure of the whole run: the extractor's exception or the
assembler's. -/
inductive RunError where
  | dfErr (e : DfError)
  | gifErr (e : GifError)
deriving DecidableEq

/-- The observable result of `run_analysis`: the mutated instance, the
file system, and the saved GIF or the exception that aborted the run.
On an error the instance and file system keep every mutation that
happened before the raise, as in Python. -/
structure RunOutcome where
  state : SlippiScatter
  fs : FS
  result : Except RunError GifArtifact

/-- `SlippiScatter.run_analysis` (src/main.py:158-170): set `verbose`
if requested, load the game only when none is set, then
`generate_dataframe`; `create_images`; `create_gif`.  `t0` is the wall
clock at the start of the rendering loop. -/
def run_analysis (load : String → Game) (s : SlippiScatter) (fs : FS) (t0 : ℕ)
    (gamePath : String) (verbose : Bool) : RunOutcome :=
  let s1 : SlippiScatter := { s with verbose := if verbose then true else s.verbose }
  let g : Game := currentGame load s1.game gamePath
  let s2 : SlippiScatter := { s1 with game := some g }
  match generate_dataframe g.frames with
  | .error e => ⟨s2, fs, .error (.dfErr e)⟩
  | .ok rows =>
    let s3 : SlippiScatter := { s2 with df := some rows }
    let imgs := create_images s3.figure_size s3.temp_images_dir rows
    let fs1 := writeImages fs s3.temp_images_dir (imgs.map RenderedImage.base) t0
    match create_gif fs1 s3.temp_images_dir s3.gif_title with
    | .error e => ⟨s3, fs1, .error (.gifErr e)⟩
    | .ok (art, fs2) => ⟨s3, fs2, .ok art⟩

/-! ### Concrete inputs used by witnesses and counterexamples -/

/-- A two-participant frame: ports 2 and 3 occupied, as the source
expects. -/
def mkFrame (pos1 pos2 : String) (d1 d2 : ℚ) : Frame :=
  ⟨[none, none, some ⟨⟨⟨pos1, d1⟩⟩⟩, some ⟨⟨⟨pos2, d2⟩⟩⟩]⟩

/-- A frame whose first position string splits into three components. -/
def cexFrame : Frame := mkFrame "(1.0, 2.0, 3.0)" "(4.0, 5.0)" 12 34

/-- A well-formed frame. -/
def wfFrame : Frame := mkFrame "(1.0, 2.0)" "(-20.75, 3.5)" 0 50

/-- An instance configured with a non-default temp directory. -/
def otherDirInstance : SlippiScatter :=
  ⟨"Other_dir", none, none, some "t", (8, 8), false⟩

/-- A loader returning a one-frame replay. -/
def loadOneFrame : String → Game := fun _ => ⟨[wfFrame]⟩

/-! ### Sorting lemmas -/

lemma insertByMtime_perm (f : ImageFile) (l : List ImageFile) :
    List.Perm (insertByMtime f l) (f :: l) := by
  induction l with
  | nil => simp [insertByMtime]
  | cons g gs ih =>
    simp only [insertByMtime]
    by_cases h : f.mtime ≤ g.mtime
    · simp [h]
    · simp only [h, if_false]
      exact (ih.cons g).trans (List.Perm.swap f g gs)

lemma sortByMtime_perm (l : List ImageFile) :
    List.Perm (sortByMtime l) l := by
  induction l with
  | nil => simp [sortByMtime]
  | cons f fs ih =>
    exact (insertByMtime_perm f (sortByMtime fs)).trans (ih.cons f)

lemma insertByMtime_sorted (f : ImageFile) (l : List ImageFile)
    (h : l.Sorted mleb) : (insertByMtime f l).Sorted mleb := by
  induction l with
  | nil => simp [insertByMtime, List.Sorted]
  | cons g gs ih =>
    simp only [insertByMtime]
    rcases (List.sorted_cons.mp h) with ⟨hg, hgs⟩
    by_cases hfg : f.mtime ≤ g.mtime
    · simp only [hfg, if_true]
      refine List.sorted_cons.mpr ⟨?_, h⟩
      intro b hb
      rcases List.mem_cons.mp hb with rfl | hb'
      · exact hfg
      · exact le_trans hfg (hg b hb')
    · simp only [hfg, if_false]
      refine List.sorted_cons.mpr ⟨?_, ih hgs⟩
      intro b hb
      have hb2 := (insertByMtime_perm f gs).mem_iff.mp hb
      rcases List.mem_cons.mp hb2 with rfl | hb3
      · exact le_of_not_le hfg
      · exact hg b hb3

lemma sortByMtime_sorted (l : List ImageFile) :
    (sortByMtime l).Sorted mleb := by
  induction l with
  | nil => simp [sortByMtime, List.Sorted]
  | cons f fs ih => exact insertByMtime_sorted f (sortByMtime fs) ih

/-! ### Extractor lemmas -/

lemma collectRaw_ok {frames : List Frame} {raw : List (String × String × ℚ × ℚ)}
    (h : collectRaw frames = .ok raw) :
    raw.length = frames.length ∧
    ∀ i fr, frames.get? i = some fr → ∃ p2 p3,
      getPre fr 2 = .ok p2 ∧ getPre fr 3 = .ok p3 ∧
      raw.get? i = some (p2.position, p3.position, p2.damage, p3.damage) := by
  induction frames generalizing raw with
  | nil =>
    simp only [collectRaw] at h
    cases h
    simp
  | cons f fs ih =>
    simp only [collectRaw] at h
    cases hp1 : getPre f 2 with
    | error e => rw [hp1] at h; cases h
    | ok p1 =>
      rw [hp1] at h
      cases hp2 : getPre f 3 with
      | error e => rw [hp2] at h; cases h
      | ok p2 =>
        rw [hp2] at h
        cases hrest : collectRaw fs with
        | error e => rw [hrest] at h; cases h
        | ok rest =>
          rw [hrest] at h
          cases h
          obtain ⟨ihlen, ihcorr⟩ := ih hrest
          refine ⟨by simp [ihlen], ?_⟩
          intro i fr hfr
          cases i with
          | zero =>
            simp only [List.get?] at hfr
            cases hfr
            exact ⟨p1, p2, hp1, hp2, rfl⟩
          | succ n =>
            simp only [List.get?] at hfr ⊢
            exact ihcorr n fr hfr

lemma parseRows_ok {raw : List (String × String × ℚ × ℚ)} {rows : List FrameRow}
    (h : parseRows raw = .ok rows) :
    rows.length = raw.length ∧
    ∀ i e, raw.get? i = some e → ∃ xy1 xy2,
      parsePos e.1 = .ok xy1 ∧ parsePos e.2.1 = .ok xy2 ∧
      rows.get? i = some ⟨xy1.1, xy1.2, xy2.1, xy2.2, e.2.2.1, e.2.2.2⟩ := by
  induction raw generalizing rows with
  | nil =>
    simp only [parseRows] at h
    cases h
    simp
  | cons e es ih =>
    obtain ⟨p1s, p2s, d1, d2⟩ := e
    simp only [parseRows] at h
    cases hx : parsePos p1s with
    | error er => rw [hx] at h; cases h
    | ok xy1 =>
      rw [hx] at h
      cases hy : parsePos p2s with
      | error er => rw [hy] at h; cases h
      | ok xy2 =>
        rw [hy] at h
        cases hrest : parseRows es with
        | error er => rw [hrest] at h; cases h
        | ok rest =>
          rw [hrest] at h
          cases h
          obtain ⟨ihlen, ihcorr⟩ := ih hrest
          refine ⟨by simp [ihlen], ?_⟩
          intro i e' he'
          cases i with
          | zero =>
            simp only [List.get?] at he'
            cases he'
            exact ⟨xy1, xy2, hx, hy, rfl⟩
          | succ n =>
            simp only [List.get?] at he' ⊢
            exact ihcorr n e' he'

lemma collectRaw_total {frames : List Frame}
    (h : ∀ fr ∈ frames, (∃ p, getPre fr 2 = .ok p) ∧ (∃ p, getPre fr 3 = .ok p)) :
    ∃ raw, collectRaw frames = .ok raw := by
  induction frames with
  | nil => exact ⟨[], rfl⟩
  | cons f fs ih =>
    obtain ⟨⟨p1, hp1⟩, ⟨p2, hp2⟩⟩ := h f (List.mem_cons_self f fs)
    obtain ⟨raw, hraw⟩ := ih (fun fr hfr => h fr (List.mem_cons_of_mem f hfr))
    exact ⟨(p1.position, p2.position, p1.damage, p2.damage) :: raw,
      by simp only [collectRaw, hp1, hp2, hraw]⟩

lemma parseRows_total {raw : List (String × String × ℚ × ℚ)}
    (h : ∀ e ∈ raw, (∃ xy, parsePos e.1 = .ok xy) ∧ (∃ xy, parsePos e.2.1 = .ok xy)) :
    ∃ rows, parseRows raw = .ok rows := by
  induction raw with
  | nil => exact ⟨[], rfl⟩
  | cons e es ih =>
    obtain ⟨⟨xy1, hx⟩, ⟨xy2, hy⟩⟩ := h e (List.mem_cons_self e es)
    obtain ⟨rows, hrows⟩ := ih (fun e' he' => h e' (List.mem_cons_of_mem e he'))
    obtain ⟨p1s, p2s, d1, d2⟩ := e
    exact ⟨⟨xy1.1, xy1.2, xy2.1, xy2.2, d1, d2⟩ :: rows,
      by simp only [parseRows, hx, hy, hrows]⟩

/-! ### Renderer lemmas -/

lemma create_images_aux_paths (figsize : ℚ × ℚ) (dir : String) (i : ℕ)
    (rs : List FrameRow) :
    (create_images_aux figsize dir i rs).map RenderedImage.path
      = ((List.range' i rs.length).filter (fun r => r % 2 = 0)).map
          (fun r => dir ++ "/" ++ toString r ++ ".png") := by
  induction rs generalizing i with
  | nil => simp [create_images_aux]
  | cons r rs ih =>
    simp only [create_images_aux, List.length_cons, List.range'_succ, List.filter_cons]
    by_cases h : i % 2 = 0
    · simp only [h]
      simp [mkRendered, ih]
    · simp only [h]
      simp [h, ih]

lemma create_images_aux_length (figsize : ℚ × ℚ) (dir : String) (i : ℕ)
    (rs : List FrameRow) :
    (create_images_aux figsize dir i rs).length
      = ((List.range' i rs.length).filter (fun r => r % 2 = 0)).length := by
  have := congrArg List.length (create_images_aux_paths figsize dir i rs)
  simpa using this

lemma length_filter_even (n : ℕ) :
    ((List.range n).filter (fun r => r % 2 = 0)).length = (n + 1) / 2 := by
  induction n with
  | zero => simp
  | succ m ih =>
    rw [List.range_succ, List.filter_append, List.length_append, ih]
    by_cases h : m % 2 = 0 <;> simp [h] <;> omega

lemma mem_create_images_aux {figsize : ℚ × ℚ} {dir : String} {i : ℕ}
    {rs : List FrameRow} {p : RenderedImage}
    (hp : p ∈ create_images_aux figsize dir i rs) :
    ∃ k r, r ∈ rs ∧ p = mkRendered figsize dir k r := by
  induction rs generalizing i with
  | nil => simp [create_images_aux] at hp
  | cons r rs ih =>
    simp only [create_images_aux] at hp
    by_cases h : i % 2 = 0
    · simp only [h] at hp
      simp only [ne_eq, not_true_eq_false, if_false, List.mem_cons] at hp
      rcases hp with rfl | hp
      · exact ⟨i, r, List.mem_cons_self r rs, rfl⟩
      · obtain ⟨k, r', hr', hpr⟩ := ih hp
        exact ⟨k, r', List.mem_cons_of_mem r hr', hpr⟩
    · rw [if_pos (by simpa using h)] at hp
      obtain ⟨k, r', hr', hpr⟩ := ih hp
      exact ⟨k, r', List.mem_cons_of_mem r hr', hpr⟩

/-- `np.e` differs from Euler's number by less than `10⁻⁸`. -/
lemma np_e_close : |(np_e : ℝ) - Real.exp 1| < 1 / 10 ^ 8 := by
  have h1 : Real.exp 1 < 2.7182818286 := Real.exp_one_lt_d9
  have h2 : (2.7182818283 : ℝ) < Real.exp 1 := Real.exp_one_gt_d9
  have h3 : (np_e : ℝ) = 6121026514868073 / 2251799813685248 := by
    norm_num [np_e]
  rw [abs_sub_lt_iff, h3]
  constructor <;> norm_num <;> linarith

/-! ### Claim theorems -/

/-- **C1**: for a table with `N` rows, `create_images` writes exactly one
image per even row index in `0..N-1` — the file `dir/{row}.png` — never
one for an odd index, `⌈N/2⌉ = (N+1)/2` files in total. -/
theorem create_images_even_rows_only (figsize : ℚ × ℚ) (dir : String)
    (df : List FrameRow) :
    (create_images figsize dir df).map RenderedImage.path
      = ((List.range df.length).filter (fun r => r % 2 = 0)).map
          (fun r => dir ++ "/" ++ toString r ++ ".png")
    ∧ (create_images figsize dir df).length = (df.length + 1) / 2 := by
  constructor
  · rw [create_images, create_images_aux_paths, ← List.range_eq_range']
  · rw [create_images, create_images_aux_length, ← List.range_eq_range',
      length_filter_even]

/-- **C8**: the list of image file paths written by `create_images` is a
deterministic function of the number of rows (the row indices) and the
temp directory path alone; two runs on tables of equal length — in
particular two runs on the same table — produce identical filename
lists. -/
theorem create_images_filenames_deterministic (figsize figsize' : ℚ × ℚ)
    (dir : String) (df df' : List FrameRow) (h : df.length = df'.length) :
    (create_images figsize dir df).map RenderedImage.path
      = (create_images figsize' dir df').map RenderedImage.path := by
  rw [create_images, create_images, create_images_aux_paths,
    create_images_aux_paths, h]

/-- Witness for `create_images_filenames_deterministic`: two different
one-row tables and figure sizes yield the same filenames. -/
theorem create_images_filenames_deterministic_witness :
    ([(⟨0, 0, 0, 0, 0, 0⟩ : FrameRow)]).length = ([(⟨1, 1, 1, 1, 1, 1⟩ : FrameRow)]).length
    ∧ (create_images (8, 8) "Temp_images" [⟨0, 0, 0, 0, 0, 0⟩]).map RenderedImage.path
      = (create_images (6, 6) "Temp_images" [⟨1, 1, 1, 1, 1, 1⟩]).map RenderedImage.path :=
  ⟨rfl, create_images_filenames_deterministic (8, 8) (6, 6) "Temp_images"
    [⟨0, 0, 0, 0, 0, 0⟩] [⟨1, 1, 1, 1, 1, 1⟩] rfl⟩

/-- **C7**: every rendered figure holds, for some row of the table, two
translucent damage-bubble markers whose areas are `damage² · np.e`
(participant 1 at list position 2, participant 2 at position 3); the
area is non-negative even for negative damage, and the constant is
within `10⁻⁸` of Euler's number. -/
theorem damage_bubble_area (figsize : ℚ × ℚ) (dir : String) (df : List FrameRow)
    (p : RenderedImage) (hp : p ∈ create_images figsize dir df) :
    ∃ r ∈ df,
      p.fig.scatters.get? 2
        = some ⟨r.P1_x, r.P1_y, r.P1_damage ^ 2 * np_e, "#7de2fb", some (35 / 100), 2⟩
      ∧ p.fig.scatters.get? 3
        = some ⟨r.P2_x, r.P2_y, r.P2_damage ^ 2 * np_e, "#f689db", some (35 / 100), 3⟩
      ∧ 0 ≤ r.P1_damage ^ 2 * np_e ∧ 0 ≤ r.P2_damage ^ 2 * np_e
      ∧ |(np_e : ℝ) - Real.exp 1| < 1 / 10 ^ 8 := by
  obtain ⟨k, r, hr, rfl⟩ := mem_create_images_aux hp
  have hnp : (0 : ℚ) ≤ np_e := by norm_num [np_e]
  exact ⟨r, hr, rfl, rfl, mul_nonneg (sq_nonneg _) hnp,
    mul_nonneg (sq_nonneg _) hnp, np_e_close⟩

/-- A row with a corrupt negative damage value. -/
def negDamageRow : FrameRow := ⟨0, 0, 10, 10, -5, 50⟩

/-- Witness for `damage_bubble_area`: the figure rendered for a row with
damage `-5` carries a bubble of positive area `25 · np.e`. -/
theorem damage_bubble_area_witness :
    mkRendered (8, 8) "Temp_images" 0 negDamageRow
        ∈ create_images (8, 8) "Temp_images" [negDamageRow]
    ∧ ∃ r ∈ [negDamageRow],
      (mkRendered (8, 8) "Temp_images" 0 negDamageRow).fig.scatters.get? 2
        = some ⟨r.P1_x, r.P1_y, r.P1_damage ^ 2 * np_e, "#7de2fb", some (35 / 100), 2⟩
      ∧ (mkRendered (8, 8) "Temp_images" 0 negDamageRow).fig.scatters.get? 3
        = some ⟨r.P2_x, r.P2_y, r.P2_damage ^ 2 * np_e, "#f689db", some (35 / 100), 3⟩
      ∧ 0 ≤ r.P1_damage ^ 2 * np_e ∧ 0 ≤ r.P2_damage ^ 2 * np_e
      ∧ |(np_e : ℝ) - Real.exp 1| < 1 / 10 ^ 8 := by
  have hmem : mkRendered (8, 8) "Temp_images" 0 negDamageRow
      ∈ create_images (8, 8) "Temp_images" [negDamageRow] := by
    simp [create_images, create_images_aux]
  exact ⟨hmem, damage_bubble_area (8, 8) "Temp_images" [negDamageRow] _ hmem⟩

/-- **C4** counterexample: a position string that splits into three
components does not make the extractor fail — `generate_dataframe`
succeeds and silently keeps only the first two components. -/
theorem parsePos_truncates_three_components :
    (splitCommaSpace (stripParens "(1.0, 2.0, 3.0)") []).length = 3
    ∧ generate_dataframe [cexFrame] = .ok [⟨1, 2, 4, 5, 12, 34⟩] :=
  ⟨by decide, by with_unfolding_all rfl⟩

/-- **C4** as amended: the per-position parse strips the grouping
punctuation, splits on `', '`, and fails exactly when the split yields
fewer than two components (`IndexError` after a parsable first
component) or when a `float` parse of one of the **first two** components
fails (`ValueError`); with more than two components it succeeds on the
first two, silently ignoring the rest. -/
theorem parsePos_split_spec (s : String) :
    ((splitCommaSpace (stripParens s) []).length < 2 → ∃ e, parsePos s = .error e)
    ∧ (∀ x y rest px py, splitCommaSpace (stripParens s) [] = x :: y :: rest →
        parseFloat x = some px → parseFloat y = some py → parsePos s = .ok (px, py))
    ∧ (∀ x rest, splitCommaSpace (stripParens s) [] = x :: rest →
        parseFloat x = none → parsePos s = .error .valueError) := by
  refine ⟨?_, ?_, ?_⟩
  · intro hlen
    cases hs : splitCommaSpace (stripParens s) [] with
    | nil => exact ⟨.indexError, by simp [parsePos, hs]⟩
    | cons x xs =>
      cases xs with
      | cons y ys => rw [hs] at hlen; simp at hlen; omega
      | nil =>
        cases hx : parseFloat x with
        | none => exact ⟨.valueError, by simp [parsePos, hs, hx]⟩
        | some px => exact ⟨.indexError, by simp [parsePos, hs, hx]⟩
  · intro x y rest px py hs hx hy
    simp [parsePos, hs, hx, hy]
  · intro x rest hs hx
    cases rest with
    | nil => simp [parsePos, hs, hx]
    | cons y ys => simp [parsePos, hs, hx]

/-- Witness for `parsePos_split_spec`: on `"5.0"` the split has a single
component and the parse fails; on `"(1.0, 2.0)"` it succeeds with the
two parsed floats. -/
theorem parsePos_split_spec_witness :
    ((splitCommaSpace (stripParens "5.0") []).length < 2
      ∧ ∃ e, parsePos "5.0" = .error e)
    ∧ (splitCommaSpace (stripParens "(1.0, 2.0)") []
          = [['1', '.', '0'], ['2', '.', '0']]
      ∧ parsePos "(1.0, 2.0)" = .ok (1, 2)) := by
  refine ⟨⟨by decide, (parsePos_split_spec "5.0").1 (by decide)⟩, ⟨by decide, ?_⟩⟩
  have h := (parsePos_split_spec "(1.0, 2.0)").2.1 ['1', '.', '0'] ['2', '.', '0'] []
    1 2 (by decide) (by with_unfolding_all rfl) (by with_unfolding_all rfl)
  exact h

/-- **C5**: on a replay whose frames all expose ports 2 and 3 with
parseable position and damage fields, `generate_dataframe` succeeds with
exactly one row per frame, and the row at table index `i` (the pandas
`RangeIndex` runs 0..N-1 in order) is built from replay frame `i`. -/
theorem generate_dataframe_row_count (frames : List Frame)
    (hwf : ∀ fr ∈ frames, ∃ p2 p3 xy1 xy2,
      getPre fr 2 = .ok p2 ∧ getPre fr 3 = .ok p3 ∧
      parsePos p2.position = .ok xy1 ∧ parsePos p3.position = .ok xy2) :
    ∃ rows, generate_dataframe frames = .ok rows
      ∧ rows.length = frames.length
      ∧ ∀ i fr, frames.get? i = some fr → ∃ p2 p3 xy1 xy2,
          getPre fr 2 = .ok p2 ∧ getPre fr 3 = .ok p3 ∧
          parsePos p2.position = .ok xy1 ∧ parsePos p3.position = .ok xy2 ∧
          rows.get? i = some ⟨xy1.1, xy1.2, xy2.1, xy2.2, p2.damage, p3.damage⟩ := by
  obtain ⟨raw, hraw⟩ := collectRaw_total (fun fr hfr => by
    obtain ⟨p2, p3, xy1, xy2, h2, h3, _, _⟩ := hwf fr hfr
    exact ⟨⟨p2, h2⟩, ⟨p3, h3⟩⟩)
  obtain ⟨hrawlen, hrawcorr⟩ := collectRaw_ok hraw
  have hmemparse : ∀ e ∈ raw,
      (∃ xy, parsePos e.1 = .ok xy) ∧ (∃ xy, parsePos e.2.1 = .ok xy) := by
    intro e he
    obtain ⟨i, hi⟩ := List.mem_iff_get?.mp he
    obtain ⟨hilt, -⟩ := List.get?_eq_some.mp hi
    have hflt : i < frames.length := by omega
    obtain ⟨fr, hfr⟩ : ∃ fr, frames.get? i = some fr := by
      cases hq : frames.get? i with
      | none => rw [List.get?_eq_none] at hq; omega
      | some fr => exact ⟨fr, rfl⟩
    obtain ⟨p2, p3, hg2, hg3, htup⟩ := hrawcorr i fr hfr
    rw [hi] at htup
    cases htup
    obtain ⟨q2, q3, z1, z2, hh2, hh3, hhx, hhy⟩ := hwf fr (List.get?_mem hfr)
    rw [hg2] at hh2
    rw [hg3] at hh3
    cases hh2
    cases hh3
    exact ⟨⟨z1, hhx⟩, ⟨z2, hhy⟩⟩
  obtain ⟨rows, hrows⟩ := parseRows_total hmemparse
  obtain ⟨hrowlen, hrowcorr⟩ := parseRows_ok hrows
  refine ⟨rows, by simp [generate_dataframe, hraw, hrows], by omega, ?_⟩
  intro i fr hfr
  obtain ⟨p2, p3, hg2, hg3, htup⟩ := hrawcorr i fr hfr
  obtain ⟨xy1, xy2, hx, hy, hrow⟩ := hrowcorr i _ htup
  exact ⟨p2, p3, xy1, xy2, hg2, hg3, hx, hy, hrow⟩

/-- Witness for `generate_dataframe_row_count`: a concrete one-frame
replay satisfying the hypothesis, with its one-row table. -/
theorem generate_dataframe_row_count_witness :
    (∀ fr ∈ [wfFrame], ∃ p2 p3 xy1 xy2,
      getPre fr 2 = .ok p2 ∧ getPre fr 3 = .ok p3 ∧
      parsePos p2.position = .ok xy1 ∧ parsePos p3.position = .ok xy2)
    ∧ ∃ rows, generate_dataframe [wfFrame] = .ok rows
      ∧ rows.length = ([wfFrame] : List Frame).length
      ∧ ∀ i fr, ([wfFrame] : List Frame).get? i = some fr → ∃ p2 p3 xy1 xy2,
          getPre fr 2 = .ok p2 ∧ getPre fr 3 = .ok p3 ∧
          parsePos p2.position = .ok xy1 ∧ parsePos p3.position = .ok xy2 ∧
          rows.get? i = some ⟨xy1.1, xy1.2, xy2.1, xy2.2, p2.damage, p3.damage⟩ := by
  have hwf : ∀ fr ∈ [wfFrame], ∃ p2 p3 xy1 xy2,
      getPre fr 2 = .ok p2 ∧ getPre fr 3 = .ok p3 ∧
      parsePos p2.position = .ok xy1 ∧ parsePos p3.position = .ok xy2 := by
    intro fr hfr
    rw [List.mem_singleton] at hfr
    subst hfr
    refine ⟨⟨"(1.0, 2.0)", 0⟩, ⟨"(-20.75, 3.5)", 50⟩, (1, 2), (-83/4, 7/2),
      by with_unfolding_all rfl, by with_unfolding_all rfl,
      by with_unfolding_all rfl, by with_unfolding_all rfl⟩
  exact ⟨hwf, generate_dataframe_row_count [wfFrame] hwf⟩

/-- **C3**: on a temp directory with zero matching images, `create_gif`
aborts with the *unhandled* `IndexError` raised by `frames[0]` — the
code never raises the explicit degenerate-input signal the spec
requires. -/
theorem create_gif_empty_uncaught (fs : FS) (dir : String) (title : Option String)
    (h : (fs dir).filter (fun f => globPng f.name) = []) :
    create_gif fs dir title = .error .uncaughtIndexError
    ∧ GifError.uncaughtIndexError ≠ GifError.degenerateInputSignal := by
  refine ⟨?_, by decide⟩
  simp [create_gif, h, sortByMtime]

/-- Witness for `create_gif_empty_uncaught`: the empty file system. -/
theorem create_gif_empty_uncaught_witness :
    (fsEmpty "Temp_images").filter (fun f => globPng f.name) = []
    ∧ (create_gif fsEmpty "Temp_images" (some "t") = .error .uncaughtIndexError
      ∧ GifError.uncaughtIndexError ≠ GifError.degenerateInputSignal) :=
  ⟨rfl, create_gif_empty_uncaught fsEmpty "Temp_images" (some "t") rfl⟩

/-- **C6** counterexample: with `K = 0` images the assembler produces no
artifact at all — it raises an unhandled `IndexError` — so the claim's
universally quantified "produces an artifact with exactly K frames"
fails at `K = 0`. -/
theorem create_gif_zero_images_fails :
    create_gif fsEmpty "Temp_images" (some "out") = .error .uncaughtIndexError := by
  with_unfolding_all rfl

/-- **C6** as amended: for `K ≥ 1` image files, all `.png`-named with
distinct modification timestamps, `create_gif` saves one artifact with
exactly `K` frames — the files themselves, in strictly ascending
modification-time order — with per-frame duration 30, loop count 0
(infinite) and path `Output/{title}.gif`. -/
theorem create_gif_k_frames (fs : FS) (dir : String) (title : Option String)
    (hpng : ∀ f ∈ fs dir, globPng f.name = true)
    (hne : fs dir ≠ [])
    (hdist : ((fs dir).map ImageFile.mtime).Nodup) :
    ∃ art fs2, create_gif fs dir title = .ok (art, fs2)
      ∧ art.frames.length = (fs dir).length
      ∧ List.Perm art.frames (fs dir)
      ∧ (art.frames.map ImageFile.mtime).Pairwise (· < ·)
      ∧ art.duration = 30 ∧ art.loop = 0
      ∧ art.path = "Output/" ++ strTitle title ++ ".gif" := by
  have hfilter : (fs dir).filter (fun f => globPng f.name) = fs dir :=
    List.filter_eq_self.mpr hpng
  have hperm : List.Perm (sortByMtime (fs dir)) (fs dir) := sortByMtime_perm (fs dir)
  have hsorted : (sortByMtime (fs dir)).Sorted mleb := sortByMtime_sorted (fs dir)
  have hlt : ((sortByMtime (fs dir)).map ImageFile.mtime).Pairwise (· < ·) := by
    have hle : ((sortByMtime (fs dir)).map ImageFile.mtime).Pairwise (· ≤ ·) :=
      List.pairwise_map.mpr hsorted
    have hnd : ((sortByMtime (fs dir)).map ImageFile.mtime).Nodup :=
      ((hperm.map ImageFile.mtime).nodup_iff).mpr hdist
    exact (hle.and hnd).imp (fun hab => lt_of_le_of_ne hab.1 hab.2)
  cases hs : sortByMtime (fs dir) with
  | nil =>
    exfalso
    rw [hs] at hperm
    exact hne hperm.symm.eq_nil
  | cons f0 rest =>
    refine ⟨⟨"Output/" ++ strTitle title ++ ".gif", f0 :: rest, 30, 0⟩,
      remove_temp_files fs, ?_, ?_, ?_, ?_, rfl, rfl, rfl⟩
    · simp [create_gif, hfilter, hs]
    · rw [← hs]; exact hperm.length_eq
    · rw [← hs]; exact hperm
    · rw [← hs]; exact hlt

/-- A temp directory holding two `.png` files with distinct
modification times, deliberately out of filename order. -/
def twoFilesFS : FS :=
  fun d => if d = "Temp_images" then [⟨"2.png", 5⟩, ⟨"0.png", 3⟩] else []

/-- Witness for `create_gif_k_frames`: the two-file directory satisfies
all three hypotheses, so an artifact with two frames exists. -/
theorem create_gif_k_frames_witness :
    ((∀ f ∈ twoFilesFS "Temp_images", globPng f.name = true)
      ∧ twoFilesFS "Temp_images" ≠ []
      ∧ ((twoFilesFS "Temp_images").map ImageFile.mtime).Nodup)
    ∧ ∃ art fs2, create_gif twoFilesFS "Temp_images" (some "out") = .ok (art, fs2)
      ∧ art.frames.length = (twoFilesFS "Temp_images").length
      ∧ List.Perm art.frames (twoFilesFS "Temp_images")
      ∧ (art.frames.map ImageFile.mtime).Pairwise (· < ·)
      ∧ art.duration = 30 ∧ art.loop = 0
      ∧ art.path = "Output/" ++ strTitle (some "out") ++ ".gif" :=
  ⟨⟨by decide, by decide, by decide⟩,
    create_gif_k_frames twoFilesFS "Temp_images" (some "out")
      (by decide) (by decide) (by decide)⟩

/-- **C2**: `remove_temp_files` hardcodes the glob `'Temp_images/*'`, so
a successful end-to-end run configured with `temp_images_dir =
"Other_dir"` leaves its one rendered image behind in `Other_dir` — the
configured temp directory does *not* end empty, contradicting the
claim; the run itself succeeds and saves `Output/t.gif`. -/
theorem run_analysis_misses_configured_temp_dir :
    (run_analysis loadOneFrame otherDirInstance fsEmpty 0 "game.slp" false).result
        = .ok ⟨"Output/t.gif", [⟨"0.png", 0⟩], 30, 0⟩
    ∧ (run_analysis loadOneFrame otherDirInstance fsEmpty 0 "game.slp" false).fs
        "Other_dir" = [⟨"0.png", 0⟩] := by
  constructor
  · with_unfolding_all rfl
  · with_unfolding_all rfl

/-- **C9**: when a game is already set (truthy), `run_analysis` ignores
its path argument entirely — the whole outcome is independent of the
path and the pre-set game is kept unchanged; a new game is loaded from
the path only when no game is set. -/
theorem run_analysis_ignores_path (load : String → Game) (s : SlippiScatter)
    (fs : FS) (t0 : ℕ) (p1 p2 : String) (v : Bool) :
    (∀ g, s.game = some g →
      run_analysis load s fs t0 p1 v = run_analysis load s fs t0 p2 v
      ∧ (run_analysis load s fs t0 p1 v).state.game = some g)
    ∧ (s.game = none →
      (run_analysis load s fs t0 p1 v).state.game = some (load p1)) := by
  constructor
  · intro g hg
    constructor
    · simp only [run_analysis, currentGame, hg]
    · simp only [run_analysis, currentGame, hg]
      split
      · rfl
      · split <;> rfl
  · intro hg
    simp only [run_analysis, currentGame, hg]
    split
    · rfl
    · split <;> rfl

/-- An instance with a pre-set game. -/
def presetInstance : SlippiScatter :=
  ⟨"Temp_images", none, some ⟨[wfFrame]⟩, some "t", (8, 8), false⟩

/-- Witness for `run_analysis_ignores_path`: with a pre-set game, two
different paths give the same outcome and the game is unchanged. -/
theorem run_analysis_ignores_path_witness :
    presetInstance.game = some ⟨[wfFrame]⟩
    ∧ run_analysis loadOneFrame presetInstance fsEmpty 0 "a.slp" false
        = run_analysis loadOneFrame presetInstance fsEmpty 0 "b.slp" false
    ∧ (run_analysis loadOneFrame presetInstance fsEmpty 0 "a.slp" false).state.game
        = some ⟨[wfFrame]⟩ := by
  have h := (run_analysis_ignores_path loadOneFrame presetInstance fsEmpty 0
    "a.slp" "b.slp" false).1 ⟨[wfFrame]⟩ rfl
  exact ⟨rfl, h.1, h.2⟩

/-- **C10**: `run_analysis` only ever raises the verbose flag — the new
flag is the disjunction of the argument and the old flag — so a flag
that is `true` stays `true` whatever the argument. -/
theorem run_analysis_verbose_monotone (load : String → Game) (s : SlippiScatter)
    (fs : FS) (t0 : ℕ) (p : String) (v : Bool) :
    (run_analysis load s fs t0 p v).state.verbose = (v || s.verbose)
    ∧ (s.verbose = true → (run_analysis load s fs t0 p v).state.verbose = true) := by
  have h : (run_analysis load s fs t0 p v).state.verbose = (v || s.verbose) := by
    simp only [run_analysis]
    split
    · cases v <;> rfl
    · split <;> (cases v <;> rfl)
  exact ⟨h, fun hv => by rw [h, hv, Bool.or_true]⟩

/-- An instance with verbose already enabled. -/
def verboseInstance : SlippiScatter :=
  ⟨"Temp_images", none, some ⟨[wfFrame]⟩, some "t", (8, 8), true⟩

/-- Witness for `run_analysis_verbose_monotone`: a later call with
`verbose=False` does not clear an enabled flag. -/
theorem run_analysis_verbose_monotone_witness :
    verboseInstance.verbose = true
    ∧ (run_analysis loadOneFrame verboseInstance fsEmpty 0 "g.slp" false).state.verbose
        = true :=
  ⟨rfl, (run_analysis_verbose_monotone loadOneFrame verboseInstance fsEmpty 0
    "g.slp" false).2 rfl⟩

end Slippi
